import Mathlib

/-!
Verification of the Pendle market-data scripts: the market discovery and
classification logic (fetch-active-markets.ts, fetch-stablecoin-markets.ts)
and the fixed-point metrics engine (the USD0 market-details script).

Modelling conventions:
* Addresses are natural numbers; token symbols are lists of characters
  (JavaScript `toUpperCase` on ASCII ticker symbols is `Char.toUpper`
  applied character-wise, `String.prototype.includes` is list-infix).
* On-chain reads are oracles packaged in a `Chain` structure; a read that
  can throw inside a per-market `try` block returns an `Option`.
* ethers `BigInt` arithmetic is `ℤ` (the quantities involved are
  non-negative, where `BigInt` division agrees with integer division).
* JavaScript floating-point formulas (`Math.exp`, `Number` arithmetic on
  descaled 1e18 fixed-point values) are modelled over `ℝ` in exact real
  semantics; the `isNaN` / `isFinite` guards of the source are vacuous in
  that idealisation and only the magnitude guards remain.
* A metric that the source renders either as a number or as the string
  "N/A" is a value of the inductive type `Metric`.
-/

namespace Pendle

/-- JavaScript `haystack.includes(needle)`: substring (list-infix) test. -/
def containsSub (sub s : List Char) : Bool := decide (sub <:+: s)

theorem containsSub_eq_true {sub s : List Char} :
    containsSub sub s = true ↔ sub <:+: s := by
  simp [containsSub]

/-- MarketInfo record produced by discovery (fetch-active-markets.ts). -/
structure MarketInfo where
  address : ℕ
  sySymbol : List Char
  ptSymbol : List Char
  ytSymbol : List Char
  expiry : ℤ
  totalLpSupply : ℤ
  timestamp : ℤ
  blockNumber : ℕ
deriving DecidableEq

/-- The fixed identifier list of fetch-stablecoin-markets.ts. -/
def STABLECOIN_IDENTIFIERS : List (List Char) :=
  [['U','S','D'], ['U','S','D','C'], ['U','S','D','T'], ['D','A','I'],
   ['U','S','D','E'], ['U','S','D','S'], ['s','U','S','D'],
   ['U','S','U','A','L'], ['c','r','v','U','S','D']]

/-- isStablecoinMarket of fetch-stablecoin-markets.ts: some uppercased
SY/PT/YT symbol contains some identifier as a substring. -/
def isStablecoinMarket (market : MarketInfo) : Bool :=
  [market.sySymbol.map Char.toUpper, market.ptSymbol.map Char.toUpper,
   market.ytSymbol.map Char.toUpper].any
    (fun symbol => STABLECOIN_IDENTIFIERS.any
      (fun identifier => containsSub identifier symbol))

/-- Reduced identifier list named by claim C10: "USD", "DAI", "USUAL". -/
def CORE_IDENTIFIERS : List (List Char) :=
  [['U','S','D'], ['D','A','I'], ['U','S','U','A','L']]

/-- The classifier as described by claim C10: matches only against the
reduced identifier list. -/
def isStablecoinMarketUsdDaiUsual (market : MarketInfo) : Bool :=
  [market.sySymbol.map Char.toUpper, market.ptSymbol.map Char.toUpper,
   market.ytSymbol.map Char.toUpper].any
    (fun symbol => CORE_IDENTIFIERS.any
      (fun identifier => containsSub identifier symbol))

theorem identifiers_reduce (s : List Char) :
    STABLECOIN_IDENTIFIERS.any (fun identifier => containsSub identifier s)
      = CORE_IDENTIFIERS.any (fun identifier => containsSub identifier s) := by
  rw [Bool.eq_iff_iff]
  simp only [List.any_eq_true, containsSub_eq_true]
  constructor
  · rintro ⟨id, hid, hc⟩
    simp only [STABLECOIN_IDENTIFIERS, List.mem_cons, List.not_mem_nil,
      or_false] at hid
    rcases hid with rfl | rfl | rfl | rfl | rfl | rfl | rfl | rfl | rfl
    · exact ⟨['U','S','D'], by simp [CORE_IDENTIFIERS], hc⟩
    · exact ⟨['U','S','D'], by simp [CORE_IDENTIFIERS],
        List.IsInfix.trans (by decide) hc⟩
    · exact ⟨['U','S','D'], by simp [CORE_IDENTIFIERS],
        List.IsInfix.trans (by decide) hc⟩
    · exact ⟨['D','A','I'], by simp [CORE_IDENTIFIERS], hc⟩
    · exact ⟨['U','S','D'], by simp [CORE_IDENTIFIERS],
        List.IsInfix.trans (by decide) hc⟩
    · exact ⟨['U','S','D'], by simp [CORE_IDENTIFIERS],
        List.IsInfix.trans (by decide) hc⟩
    · exact ⟨['U','S','D'], by simp [CORE_IDENTIFIERS],
        List.IsInfix.trans (by decide) hc⟩
    · exact ⟨['U','S','U','A','L'], by simp [CORE_IDENTIFIERS], hc⟩
    · exact ⟨['U','S','D'], by simp [CORE_IDENTIFIERS],
        List.IsInfix.trans (by decide) hc⟩
  · rintro ⟨id, hid, hc⟩
    simp only [CORE_IDENTIFIERS, List.mem_cons, List.not_mem_nil,
      or_false] at hid
    rcases hid with rfl | rfl | rfl
    · exact ⟨['U','S','D'], by simp [STABLECOIN_IDENTIFIERS], hc⟩
    · exact ⟨['D','A','I'], by simp [STABLECOIN_IDENTIFIERS], hc⟩
    · exact ⟨['U','S','U','A','L'], by simp [STABLECOIN_IDENTIFIERS], hc⟩

/-- C9: the stablecoin classifier is case-insensitive — two MarketInfos
whose SY/PT/YT symbols agree after character-wise upper-casing classify
identically — and it returns true exactly when some case-normalized symbol
contains some string of the fixed identifier set as a substring. -/
theorem isStablecoinMarket_case_insensitive :
    (∀ m m' : MarketInfo,
        m.sySymbol.map Char.toUpper = m'.sySymbol.map Char.toUpper →
        m.ptSymbol.map Char.toUpper = m'.ptSymbol.map Char.toUpper →
        m.ytSymbol.map Char.toUpper = m'.ytSymbol.map Char.toUpper →
        isStablecoinMarket m = isStablecoinMarket m')
    ∧ (∀ m : MarketInfo, isStablecoinMarket m = true ↔
        ∃ s ∈ [m.sySymbol, m.ptSymbol, m.ytSymbol],
          ∃ id ∈ STABLECOIN_IDENTIFIERS, id <:+: s.map Char.toUpper) := by
  constructor
  · intro m m' h1 h2 h3
    simp only [isStablecoinMarket, h1, h2, h3]
  · intro m
    simp only [isStablecoinMarket, List.any_eq_true, containsSub_eq_true,
      List.mem_cons, List.not_mem_nil, or_false]
    constructor
    · rintro ⟨s, hs, id, hid, hc⟩
      rcases hs with rfl | rfl | rfl
      · exact ⟨m.sySymbol, Or.inl rfl, id, hid, hc⟩
      · exact ⟨m.ptSymbol, Or.inr (Or.inl rfl), id, hid, hc⟩
      · exact ⟨m.ytSymbol, Or.inr (Or.inr rfl), id, hid, hc⟩
    · rintro ⟨s, hs, id, hid, hc⟩
      rcases hs with rfl | rfl | rfl
      · exact ⟨m.sySymbol.map Char.toUpper, Or.inl rfl, id, hid, hc⟩
      · exact ⟨m.ptSymbol.map Char.toUpper, Or.inr (Or.inl rfl), id, hid, hc⟩
      · exact ⟨m.ytSymbol.map Char.toUpper, Or.inr (Or.inr rfl), id, hid, hc⟩

/-- Example market whose SY symbol is lower-case "usdc". -/
def marketUsdcLower : MarketInfo :=
  { address := 1, sySymbol := ['u','s','d','c'], ptSymbol := ['p','t'],
    ytSymbol := ['y','t'], expiry := 100, totalLpSupply := 5,
    timestamp := 50, blockNumber := 7 }

/-- Example market identical up to letter case: SY symbol "USDC". -/
def marketUsdcUpper : MarketInfo :=
  { address := 1, sySymbol := ['U','S','D','C'], ptSymbol := ['p','t'],
    ytSymbol := ['y','t'], expiry := 100, totalLpSupply := 5,
    timestamp := 50, blockNumber := 7 }

/-- C9 witness: "usdc" and "USDC" classify identically (and as stablecoin). -/
theorem isStablecoinMarket_case_insensitive_witness :
    isStablecoinMarket marketUsdcLower = isStablecoinMarket marketUsdcUpper
      ∧ isStablecoinMarket marketUsdcLower = true :=
  ⟨isStablecoinMarket_case_insensitive.1 marketUsdcLower marketUsdcUpper
      (by decide) (by decide) (by decide),
    by decide⟩

/-- C10: the full identifier list is equivalent to matching only
"USD", "DAI" and "USUAL": every other entry contains "USD" as a substring,
so it can never change the outcome of the classifier. -/
theorem isStablecoinMarket_eq_usdDaiUsual (m : MarketInfo) :
    isStablecoinMarket m = isStablecoinMarketUsdDaiUsual m := by
  simp only [isStablecoinMarket, isStablecoinMarketUsdDaiUsual,
    List.any_cons, List.any_nil]
  rw [identifiers_reduce, identifiers_reduce, identifiers_reduce]

/-! ## Market discovery (findValidNonExpiredMarkets) -/

/-- The slice of the readState tuple that discovery consumes. -/
structure MarketStateSnapshot where
  expiry : ℤ
deriving DecidableEq

/-- On-chain read oracles used by discovery.  `isValidMarket` and
`isExpired` are read outside the per-market try block (their failure is
fatal for the whole call) and are total; the reads inside the try block
return `Option`, `none` modelling a thrown/rejected call. -/
structure Chain where
  isValidMarket : ℕ → Bool
  isExpired : ℕ → Bool
  readTokens : ℕ → Option (ℕ × ℕ × ℕ)
  symbol : ℕ → Option (List Char)
  readState : ℕ → Option MarketStateSnapshot
  totalSupply : ℕ → Option ℤ

/-- Body of the per-market try block of findValidNonExpiredMarkets:
readTokens, the three symbol reads, readState and totalSupply in source
order; any failure aborts only this market (caught), yielding `none`. -/
def fetchMarketInfo (c : Chain) (currentTimestamp : ℤ) (currentBlock : ℕ)
    (marketAddress : ℕ) : Option MarketInfo :=
  (c.readTokens marketAddress).bind fun tokens =>
  (c.symbol tokens.1).bind fun sySymbol =>
  (c.symbol tokens.2.1).bind fun ptSymbol =>
  (c.symbol tokens.2.2).bind fun ytSymbol =>
  (c.readState marketAddress).bind fun state =>
  (c.totalSupply marketAddress).bind fun totalLpSupply =>
  some { address := marketAddress, sySymbol := sySymbol,
         ptSymbol := ptSymbol, ytSymbol := ytSymbol,
         expiry := state.expiry, totalLpSupply := totalLpSupply,
         timestamp := currentTimestamp, blockNumber := currentBlock }

/-- One iteration of the event loop: skip events without args or with a
falsy address (`none`), then check factory validity, then expiry, then
fetch the per-market details inside the try block. -/
def processCreateEvent (c : Chain) (currentTimestamp : ℤ) (currentBlock : ℕ)
    (event : Option ℕ) : Option MarketInfo :=
  match event with
  | none => none
  | some marketAddress =>
    if c.isValidMarket marketAddress then
      if c.isExpired marketAddress then none
      else fetchMarketInfo c currentTimestamp currentBlock marketAddress
    else none

/-- findValidNonExpiredMarkets of fetch-active-markets.ts, given the
creation-event list retrieved for the lookback window. -/
def findValidNonExpiredMarkets (c : Chain) (currentTimestamp : ℤ)
    (currentBlock : ℕ) (events : List (Option ℕ)) : List MarketInfo :=
  events.filterMap (processCreateEvent c currentTimestamp currentBlock)

/-- C2: assuming the on-chain `isExpired()` view agrees with the expiry
stored in the market state (`isExpired = (expiry ≤ currentTimestamp)`),
every MarketInfo returned by discovery passed the factory validity check
and has `expiry > currentTimestamp`: no invalid and no expired market is
ever returned. -/
theorem findValidNonExpiredMarkets_sound (c : Chain) (currentTimestamp : ℤ)
    (currentBlock : ℕ) (events : List (Option ℕ))
    (hexp : ∀ a st, c.readState a = some st →
      (c.isExpired a = true ↔ st.expiry ≤ currentTimestamp)) :
    ∀ info ∈ findValidNonExpiredMarkets c currentTimestamp currentBlock events,
      c.isValidMarket info.address = true ∧ currentTimestamp < info.expiry := by
  intro info hmem
  rw [findValidNonExpiredMarkets, List.mem_filterMap] at hmem
  obtain ⟨ev, -, hev⟩ := hmem
  match ev with
  | none => exact absurd hev (by simp [processCreateEvent])
  | some a =>
    rw [processCreateEvent] at hev
    by_cases hv : c.isValidMarket a
    · rw [if_pos hv] at hev
      by_cases he : c.isExpired a
      · rw [if_pos he] at hev
        exact absurd hev (by simp)
      · rw [if_neg he] at hev
        simp only [fetchMarketInfo, Option.bind_eq_some, Option.some.injEq]
          at hev
        obtain ⟨tokens, hrt, sySym, hsy, ptSym, hpt, ytSym, hyt, st, hst,
          lp, hlp, rfl⟩ := hev
        refine ⟨hv, ?_⟩
        have hiff := hexp a st hst
        have hnle : ¬ st.expiry ≤ currentTimestamp := fun hle =>
          he (hiff.mpr hle)
        simpa using lt_of_not_le hnle
    · rw [if_neg hv] at hev
      exact absurd hev (by simp)

/-- A one-market chain used to witness the discovery theorems. -/
def chainA : Chain :=
  { isValidMarket := fun a => a == 1
    isExpired := fun _ => false
    readTokens := fun a => if a = 1 then some (11, 12, 13) else none
    symbol := fun a =>
      if a = 11 then some ['s','U','S','D','e']
      else if a = 12 then some ['P','T']
      else if a = 13 then some ['Y','T'] else none
    readState := fun a => if a = 1 then some ⟨100⟩ else none
    totalSupply := fun a => if a = 1 then some 5 else none }

/-- The record discovery produces for market 1 of `chainA`. -/
def infoA : MarketInfo :=
  { address := 1, sySymbol := ['s','U','S','D','e'], ptSymbol := ['P','T'],
    ytSymbol := ['Y','T'], expiry := 100, totalLpSupply := 5,
    timestamp := 50, blockNumber := 7 }

/-- C2 witness: on the concrete chain `chainA` at timestamp 50, the
returned record is valid and unexpired. -/
theorem findValidNonExpiredMarkets_sound_witness :
    chainA.isValidMarket infoA.address = true ∧ (50 : ℤ) < infoA.expiry :=
  findValidNonExpiredMarkets_sound chainA 50 7 [some 1]
    (by
      intro a st hst
      by_cases ha : a = 1
      · subst ha
        rw [show chainA.readState 1 = some ⟨100⟩ from rfl] at hst
        obtain rfl := (Option.some.injEq _ _).mp hst
        simp [chainA]
      · rw [show chainA.readState a = none by simp [chainA, ha]] at hst
        exact absurd hst (by simp))
    infoA (by decide)

/-- C5: a market whose per-market detail fetch fails (a thrown
token-symbol or state read inside the try block) is merely excluded:
discovery of the surrounding events is unaffected. -/
theorem findValidNonExpiredMarkets_skips_failing (c : Chain)
    (currentTimestamp : ℤ) (currentBlock : ℕ)
    (pre post : List (Option ℕ)) (a : ℕ)
    (hfail : fetchMarketInfo c currentTimestamp currentBlock a = none) :
    findValidNonExpiredMarkets c currentTimestamp currentBlock
        (pre ++ some a :: post)
      = findValidNonExpiredMarkets c currentTimestamp currentBlock pre
        ++ findValidNonExpiredMarkets c currentTimestamp currentBlock post := by
  simp only [findValidNonExpiredMarkets, List.filterMap_append,
    List.filterMap_cons]
  have hnone : processCreateEvent c currentTimestamp currentBlock (some a)
      = none := by
    rw [processCreateEvent]
    split_ifs <;> simp [hfail]
  rw [hnone]

/-- A five-market chain where the state read of market 3 throws. -/
def chainB : Chain :=
  { isValidMarket := fun _ => true
    isExpired := fun _ => false
    readTokens := fun a => some (10 * a + 1, 10 * a + 2, 10 * a + 3)
    symbol := fun _ => some ['S']
    readState := fun a => if a = 3 then none else some ⟨100⟩
    totalSupply := fun _ => some 5 }

/-- C5 witness: with five discovered markets and the state read of
market 3 throwing, the output equals the records of the other four. -/
theorem findValidNonExpiredMarkets_skips_failing_witness :
    findValidNonExpiredMarkets chainB 50 7
        [some 1, some 2, some 3, some 4, some 5]
      = findValidNonExpiredMarkets chainB 50 7 [some 1, some 2]
        ++ findValidNonExpiredMarkets chainB 50 7 [some 4, some 5] :=
  findValidNonExpiredMarkets_skips_failing chainB 50 7
    [some 1, some 2] [some 4, some 5] 3 (by decide)

/-! ## Fixed-point metrics engine (USD0 market-details script) -/

/-- Result of a metric computation: a numeric value or the "N/A" sentinel. -/
inductive Metric where
  | val : ℝ → Metric
  | na : Metric

/-- Real value computed inside calculateImpliedApy before percent
formatting: `exp(lastLnImpliedRate / 1e18) - 1`. -/
noncomputable def impliedApyValue (lnRate : ℤ) : ℝ :=
  Real.exp ((lnRate : ℝ) / 10 ^ 18) - 1

/-- Real value computed inside calculateFeeAdjustedApy before percent
formatting: `(exp(r) - 1) * (1 - reserveFeePercent / 100)`. -/
noncomputable def feeAdjustedApyValue (lnRate reserveFeePercent : ℤ) : ℝ :=
  (Real.exp ((lnRate : ℝ) / 10 ^ 18) - 1) * (1 - (reserveFeePercent : ℝ) / 100)

/-- calculateImpliedApy: renders the percentage unconditionally — the
source has no NaN/Infinity/plausibility guard on this path. -/
noncomputable def calculateImpliedApy (lnRate : ℤ) : Metric :=
  Metric.val ((Real.exp ((lnRate : ℝ) / 10 ^ 18) - 1) * 100)

/-- calculateFeeAdjustedApy: likewise unconditional. -/
noncomputable def calculateFeeAdjustedApy (lnRate reserveFeePercent : ℤ) :
    Metric :=
  Metric.val (((Real.exp ((lnRate : ℝ) / 10 ^ 18) - 1)
    * (1 - (reserveFeePercent : ℝ) / 100)) * 100)

open Classical in
/-- calculateYtYield: guards the raw yield to [-1, 10] and degrades to
"N/A" outside that range; the isNaN and isFinite guards of the source
are vacuous over exact reals. -/
noncomputable def calculateYtYield (lnImpliedRate : ℤ) : Metric :=
  if Real.exp ((lnImpliedRate : ℝ) / 10 ^ 18) - 1 < -1
      ∨ 10 < Real.exp ((lnImpliedRate : ℝ) / 10 ^ 18) - 1 then Metric.na
  else Metric.val ((Real.exp ((lnImpliedRate : ℝ) / 10 ^ 18) - 1) * 100)

open Classical in
/-- calculateRewardApr (total only): "N/A" on an empty rate list, then the
first rate descaled from 1e18 and annualized with 365*24*60*60 seconds,
guarded to [0, 1000]. -/
noncomputable def calculateRewardApr (rates : List ℤ) : Metric :=
  match rates with
  | [] => Metric.na
  | r0 :: _ =>
    if ((r0 : ℝ) / 10 ^ 18) * (365 * 24 * 60 * 60) < 0
        ∨ 1000 < ((r0 : ℝ) / 10 ^ 18) * (365 * 24 * 60 * 60) then Metric.na
    else Metric.val (((r0 : ℝ) / 10 ^ 18) * (365 * 24 * 60 * 60))

/-- Discount factor computed inside calculateYtPrice:
`exp(-r * timeToExpiryYears)` with
`timeToExpiryYears = (expiry - timestamp) / 31,536,000`. -/
noncomputable def ptPriceValue (lastLnImpliedRate expiry timestamp : ℤ) : ℝ :=
  Real.exp (-((lastLnImpliedRate : ℝ) / 10 ^ 18)
    * (((expiry : ℝ) - (timestamp : ℝ)) / 31536000))

/-- calculateYtPrice: returns `1 - discountFactor` unconditionally; the
surrounding try/catch only intercepts thrown exceptions, which the numeric
path never produces. -/
noncomputable def calculateYtPrice (lastLnImpliedRate expiry timestamp : ℤ) :
    Metric :=
  Metric.val (1 - Real.exp (-((lastLnImpliedRate : ℝ) / 10 ^ 18)
    * (((expiry : ℝ) - (timestamp : ℝ)) / (365 * 24 * 60 * 60))))

theorem exp_one_twentieth_bounds :
    50461 / 48000 - 1 / 3072000 ≤ Real.exp (1 / 20)
      ∧ Real.exp (1 / 20) ≤ 50461 / 48000 + 1 / 3072000 := by
  have hb := Real.exp_bound (x := 1 / 20)
    (by rw [abs_le]; constructor <;> norm_num) (n := 4) (by norm_num)
  have hs : ∑ m ∈ Finset.range 4, ((1 : ℝ) / 20) ^ m / m.factorial
      = 50461 / 48000 := by
    simp [Finset.sum_range_succ, Nat.factorial]
    norm_num
  rw [hs] at hb
  have habs : |Real.exp (1 / 20) - 50461 / 48000| ≤ 1 / 3072000 := by
    refine hb.trans ?_
    rw [abs_of_nonneg (by norm_num : (0 : ℝ) ≤ 1 / 20)]
    norm_num [Nat.factorial]
  rw [abs_le] at habs
  constructor <;> linarith [habs.1, habs.2]

/-- C1: the implied APY is exp(r) - 1 with r the descaled
lastLnImpliedRate, and the fee-adjusted APY equals
impliedApy * (1 - reserveFeePercent/100), for every state; at
lastLnImpliedRate = 0.05e18 with reserveFeePercent = 10 the implied APY
lies in (5.125%, 5.135%), displayed as "5.13%", and the fee-adjusted APY
in (4.605%, 4.615%), displayed as "4.61%". -/
theorem apy_formulas_and_scenario :
    (∀ lnRate reserveFeePercent : ℤ,
        feeAdjustedApyValue lnRate reserveFeePercent
          = impliedApyValue lnRate * (1 - (reserveFeePercent : ℝ) / 100)
        ∧ calculateImpliedApy lnRate
          = Metric.val (impliedApyValue lnRate * 100)
        ∧ calculateFeeAdjustedApy lnRate reserveFeePercent
          = Metric.val (feeAdjustedApyValue lnRate reserveFeePercent * 100))
    ∧ (5.125 < impliedApyValue (5 * 10 ^ 16) * 100
        ∧ impliedApyValue (5 * 10 ^ 16) * 100 < 5.135)
    ∧ (4.605 < feeAdjustedApyValue (5 * 10 ^ 16) 10 * 100
        ∧ feeAdjustedApyValue (5 * 10 ^ 16) 10 * 100 < 4.615) := by
  have hr : ((5 * 10 ^ 16 : ℤ) : ℝ) / 10 ^ 18 = 1 / 20 := by norm_num
  have hb := exp_one_twentieth_bounds
  refine ⟨fun lnRate fee => ⟨rfl, rfl, rfl⟩, ?_, ?_⟩
  · rw [impliedApyValue, hr]
    constructor <;> linarith [hb.1, hb.2]
  · rw [feeAdjustedApyValue, hr]
    push_cast
    constructor <;> linarith [hb.1, hb.2]

theorem exp_three_gt_eleven : (11 : ℝ) < Real.exp 3 := by
  have h1 := Real.exp_one_gt_d9
  have h3 : Real.exp 3 = Real.exp 1 ^ 3 := by
    rw [show (3 : ℝ) = ((3 : ℕ) : ℝ) * 1 by norm_num, Real.exp_nat_mul]
  have h2 : (2.7 : ℝ) ^ 3 < Real.exp 1 ^ 3 := by
    gcongr
    linarith
  rw [h3]
  nlinarith [h2]

/-- C3 counterexample: calculateImpliedApy performs no plausibility check:
at lastLnImpliedRate = 3e18 the implied yield is exp(3) - 1 ≈ 1909%, far
outside [-100%, 1000%], yet the number is returned rather than "N/A" —
while calculateYtYield at the same input does degrade to "N/A". -/
theorem calculateImpliedApy_emits_implausible :
    calculateImpliedApy (3 * 10 ^ 18) = Metric.val ((Real.exp 3 - 1) * 100)
    ∧ 1000 < (Real.exp 3 - 1) * 100
    ∧ calculateYtYield (3 * 10 ^ 18) = Metric.na := by
  have harg : ((3 * 10 ^ 18 : ℤ) : ℝ) / 10 ^ 18 = 3 := by norm_num
  refine ⟨?_, ?_, ?_⟩
  · rw [calculateImpliedApy, harg]
  · linarith [exp_three_gt_eleven]
  · rw [calculateYtYield, harg,
      if_pos (Or.inr (by linarith [exp_three_gt_eleven]))]

/-- C3 amended: only calculateYtYield and calculateRewardApr range-check
their result (yield within [-100%, 1000%], APR within [0, 1000]) and
degrade to the "N/A" sentinel; calculateImpliedApy, calculateFeeAdjustedApy
and calculateYtPrice always return the computed number unchecked. -/
theorem metric_range_checks :
    (∀ lnRate : ℤ, calculateYtYield lnRate = Metric.na
        ∨ ∃ x : ℝ, calculateYtYield lnRate = Metric.val x
            ∧ -100 ≤ x ∧ x ≤ 1000)
    ∧ (∀ rates : List ℤ, calculateRewardApr rates = Metric.na
        ∨ ∃ x : ℝ, calculateRewardApr rates = Metric.val x
            ∧ 0 ≤ x ∧ x ≤ 1000)
    ∧ (∀ lnRate : ℤ, ∃ x, calculateImpliedApy lnRate = Metric.val x)
    ∧ (∀ lnRate fee : ℤ,
        ∃ x, calculateFeeAdjustedApy lnRate fee = Metric.val x)
    ∧ (∀ r e t : ℤ, ∃ x, calculateYtPrice r e t = Metric.val x) := by
  refine ⟨?_, ?_, fun r => ⟨_, rfl⟩, fun r f => ⟨_, rfl⟩,
    fun r e t => ⟨_, rfl⟩⟩
  · intro lnRate
    rw [calculateYtYield]
    split_ifs with h
    · exact Or.inl rfl
    · push_neg at h
      exact Or.inr ⟨_, rfl, by linarith [h.1], by linarith [h.2]⟩
  · intro rates
    rcases rates with - | ⟨r0, rest⟩
    · exact Or.inl rfl
    · simp only [calculateRewardApr]
      split_ifs with h
      · exact Or.inl rfl
      · push_neg at h
        exact Or.inr ⟨_, rfl, h.1, h.2⟩

/-! ## Maturity progress -/

/-- calculateMaturityProgress: "Unknown" (`none`) when the creation value
is falsy, "100.00%" when `expiry - creation ≤ 0`, otherwise the unclamped
elapsed/total percentage. -/
def calculateMaturityProgress (creation expiry current : ℤ) : Option ℚ :=
  if creation = 0 then none
  else if expiry - creation ≤ 0 then some 100
  else some (((current : ℚ) - (creation : ℚ))
    / ((expiry : ℚ) - (creation : ℚ)) * 100)

/-- C4 counterexample: with creation 100, expiry 200, current 300 the
source returns 200%, not a value clamped to [0%, 100%]. -/
theorem calculateMaturityProgress_not_clamped :
    calculateMaturityProgress 100 200 300 = some 200
      ∧ (100 : ℚ) < 200 := by
  constructor
  · rw [calculateMaturityProgress]
    norm_num
  · norm_num

/-- C4 amended: maturityProgress is the *unclamped* ratio
(current - creation)/(expiry - creation) as a percentage — it can exceed
100% (see the counterexample) — and it is "Unknown" when the creation
value is unavailable, 100% for degenerate markets with
expiry ≤ creation, and monotonically non-decreasing in the current
timestamp. -/
theorem calculateMaturityProgress_spec :
    (∀ expiry current : ℤ, calculateMaturityProgress 0 expiry current = none)
    ∧ (∀ creation expiry current : ℤ, creation ≠ 0 → expiry ≤ creation →
        calculateMaturityProgress creation expiry current = some 100)
    ∧ (∀ creation expiry current : ℤ, creation ≠ 0 → creation < expiry →
        calculateMaturityProgress creation expiry current
          = some (((current : ℚ) - (creation : ℚ))
              / ((expiry : ℚ) - (creation : ℚ)) * 100))
    ∧ (∀ creation expiry t t' : ℤ, t ≤ t' →
        ∀ q q' : ℚ, calculateMaturityProgress creation expiry t = some q →
          calculateMaturityProgress creation expiry t' = some q' → q ≤ q') := by
  refine ⟨?_, ?_, ?_, ?_⟩
  · intro e t
    rw [calculateMaturityProgress, if_pos rfl]
  · intro c e t hc he
    rw [calculateMaturityProgress, if_neg hc, if_pos (by omega)]
  · intro c e t hc he
    rw [calculateMaturityProgress, if_neg hc, if_neg (by omega)]
  · intro c e t t' htt q q' hq hq'
    rw [calculateMaturityProgress] at hq hq'
    by_cases hc : c = 0
    · rw [if_pos hc] at hq
      exact absurd hq (by simp)
    · rw [if_neg hc] at hq hq'
      by_cases he : e - c ≤ 0
      · rw [if_pos he] at hq hq'
        obtain rfl := (Option.some.injEq _ _).mp hq
        obtain rfl := (Option.some.injEq _ _).mp hq'
        exact le_refl _
      · rw [if_neg he] at hq hq'
        obtain rfl := (Option.some.injEq _ _).mp hq
        obtain rfl := (Option.some.injEq _ _).mp hq'
        have hd : (0 : ℚ) < (e : ℚ) - (c : ℚ) := by
          have h1 : (0 : ℤ) < e - c := by omega
          have h2 : ((0 : ℤ) : ℚ) < ((e - c : ℤ) : ℚ) := Int.cast_lt.mpr h1
          push_cast at h2
          linarith
        have hnum : ((t : ℚ) - (c : ℚ)) ≤ ((t' : ℚ) - (c : ℚ)) := by
          have h3 : (t : ℚ) ≤ (t' : ℚ) := Int.cast_le.mpr htt
          linarith
        exact mul_le_mul_of_nonneg_right
          ((div_le_div_iff_of_pos_right hd).mpr hnum) (by norm_num)

/-- C4 witness: the amended theorem applied at creation 10, expiry 110,
timestamps 20 ≤ 30 (progress 10% ≤ 20%), and at an unavailable creation. -/
theorem calculateMaturityProgress_spec_witness :
    (10 : ℚ) ≤ 20 ∧ calculateMaturityProgress 0 110 20 = none :=
  ⟨calculateMaturityProgress_spec.2.2.2 10 110 20 30 (by norm_num) 10 20
      (by rw [calculateMaturityProgress]; norm_num)
      (by rw [calculateMaturityProgress]; norm_num),
    calculateMaturityProgress_spec.1 110 20⟩

/-! ## TVL and utilization -/

/-- calculateYtBalance: `totalPt - totalSy` when positive, else 0. -/
def calculateYtBalance (totalPt totalSy : ℤ) : ℤ :=
  if totalSy < totalPt then totalPt - totalSy else 0

/-- calculateTvl: exact BigInt arithmetic,
`(totalSy + totalPt + ytBalance + totalLp) * syExchangeRate / 1e18`. -/
def calculateTvl (totalSy totalPt totalLp syExchangeRate : ℤ) : ℤ :=
  (totalSy + totalPt + calculateYtBalance totalPt totalSy + totalLp)
    * syExchangeRate / 10 ^ 18

/-- C6: for non-negative pool quantities and exchange rate, tvl equals
`(totalSy + totalPt + max(totalPt - totalSy, 0) + totalLp) *
syExchangeRate / 1e18` in exact integer arithmetic, with
`ytBalance = max(totalPt - totalSy, 0)`. -/
theorem calculateTvl_formula (totalSy totalPt totalLp syExchangeRate : ℤ)
    (hsy : 0 ≤ totalSy) (hpt : 0 ≤ totalPt) (hlp : 0 ≤ totalLp)
    (hrate : 0 ≤ syExchangeRate) :
    calculateTvl totalSy totalPt totalLp syExchangeRate
      = (totalSy + totalPt + max (totalPt - totalSy) 0 + totalLp)
          * syExchangeRate / 10 ^ 18
    ∧ calculateYtBalance totalPt totalSy = max (totalPt - totalSy) 0 := by
  have hyt : calculateYtBalance totalPt totalSy
      = max (totalPt - totalSy) 0 := by
    rw [calculateYtBalance]
    split_ifs with h <;> omega
  exact ⟨by rw [calculateTvl, hyt], hyt⟩

/-- C6 witness: totalSy = 0, totalPt = 1000e18 gives
ytBalance = 1000e18. -/
theorem calculateTvl_formula_witness :
    (calculateTvl 0 (1000 * 10 ^ 18) 0 (10 ^ 18)
        = (0 + 1000 * 10 ^ 18 + max (1000 * 10 ^ 18 - 0) 0 + 0)
            * 10 ^ 18 / 10 ^ 18
      ∧ calculateYtBalance (1000 * 10 ^ 18) 0 = max (1000 * 10 ^ 18 - 0) 0)
    ∧ calculateYtBalance (1000 * 10 ^ 18) 0 = 1000 * 10 ^ 18 :=
  ⟨calculateTvl_formula 0 (1000 * 10 ^ 18) 0 (10 ^ 18)
      (by norm_num) (by norm_num) (by norm_num) (by norm_num),
    by decide⟩

/-- calculateUtilization: descale both quantities from 1e18, return 0 on
the explicit zero guard, else the percent ratio. -/
def calculateUtilization (totalPt totalSy : ℤ) : ℚ :=
  if (totalSy : ℚ) / 10 ^ 18 = 0 then 0
  else ((totalPt : ℚ) / 10 ^ 18) / ((totalSy : ℚ) / 10 ^ 18) * 100

/-- C8: the utilization rate is 0 whenever totalSy = 0 — via the explicit
guard, never a division fault — and totalPt/totalSy (as a percentage)
otherwise. -/
theorem calculateUtilization_spec (totalPt totalSy : ℤ) :
    calculateUtilization totalPt totalSy
      = if totalSy = 0 then 0 else (totalPt : ℚ) / (totalSy : ℚ) * 100 := by
  rw [calculateUtilization]
  by_cases h : totalSy = 0
  · rw [if_pos h, if_pos (by rw [h]; norm_num)]
  · have h0 : ((totalSy : ℚ)) ≠ 0 := Int.cast_ne_zero.mpr h
    have h1 : ((totalSy : ℚ) / 10 ^ 18) ≠ 0 := div_ne_zero h0 (by norm_num)
    rw [if_neg h1, if_neg h]
    field_simp

/-! ## YT price -/

/-- C7 counterexample: at lastLnImpliedRate = -1e18 with one year to
expiry the discount factor (ptPrice) is exp(1) > 3/2, outside [0, 1+ε],
yet calculateYtPrice returns the derived value 1 - exp(1) < 0 instead of
clamping or degrading to "N/A". -/
theorem calculateYtPrice_no_clamp :
    (3 / 2 : ℝ) < ptPriceValue (-(10 ^ 18)) 31536000 0
    ∧ calculateYtPrice (-(10 ^ 18)) 31536000 0
        = Metric.val (1 - ptPriceValue (-(10 ^ 18)) 31536000 0)
    ∧ 1 - ptPriceValue (-(10 ^ 18)) 31536000 0 < 0 := by
  have harg : ptPriceValue (-(10 ^ 18)) 31536000 0 = Real.exp 1 := by
    rw [ptPriceValue]
    norm_num
  have h1 := Real.exp_one_gt_d9
  refine ⟨by rw [harg]; linarith, ?_, by rw [harg]; linarith⟩
  rw [calculateYtPrice, ptPriceValue]
  norm_num

/-- C7 amended: calculateYtPrice never clamps or rejects: it always
returns the value `1 - ptPrice` (so an out-of-range discount factor flows
straight into the output); the discount factor itself is strictly
positive, so only the upper bound can ever be violated. -/
theorem calculateYtPrice_formula (r e t : ℤ) :
    calculateYtPrice r e t = Metric.val (1 - ptPriceValue r e t)
    ∧ 0 < ptPriceValue r e t := by
  constructor
  · rw [calculateYtPrice, ptPriceValue]
    norm_num
  · exact Real.exp_pos _

end Pendle
